import Mathlib

/-!
Verification of the `what-the-food` repository against its specification.

The repository is a pipeline of three small HTTP services:
  * `backend/image_ocr/app/main.py`    — OCR plus a rule-based menu structurer;
  * `backend/nlu_enhancement/app/main.py` — LLM-backed structurer and prompt
    generator with JSON shape validation and repair;
  * `backend/Image_Gen/main.py`        — diffusion-based image generation with
    per-model hyperparameters and HTTP error mapping.

Python strings are embedded as `List Char`; ASCII classification functions
(`Char.isUpper`, `Char.isDigit`, `Char.isAlpha`) stand in for the Python
`str` methods, and the whitespace set is the ASCII portion of Python's.
Fallible Python code (index errors, `KeyError`, `ValueError`) is embedded
with `Except` / explicit error results.
-/

/-! ### Basic string utilities (Python `str` operations on `List Char`) -/

/-- The ASCII whitespace characters recognised by Python's `str.strip`,
`str.split` and the regex class `\s`. -/
def isSpaceChar (c : Char) : Bool :=
  c == ' ' || c == '\t' || c == '\n' || c == '\r' || c == '\x0b' || c == '\x0c'

/-- Python `str.strip()`: remove leading and trailing whitespace. -/
def strip (l : List Char) : List Char :=
  ((l.dropWhile isSpaceChar).reverse.dropWhile isSpaceChar).reverse

/-- Python `str.split(sep)` for a single-character separator: split on every
occurrence, keeping empty pieces (as Python does). -/
def splitOnChar (sep : Char) (l : List Char) : List (List Char) :=
  l.foldr
    (fun c acc =>
      match acc with
      | cur :: rest => if c == sep then [] :: cur :: rest else (c :: cur) :: rest
      | [] => [[c]])
    [[]]

/-- Helper for `splitWs`: accumulate the current word (reversed). -/
def splitWsAux : List Char → List Char → List (List Char)
  | [], cur => if cur.isEmpty then [] else [cur.reverse]
  | c :: rest, cur =>
    if isSpaceChar c then
      if cur.isEmpty then splitWsAux rest [] else cur.reverse :: splitWsAux rest []
    else splitWsAux rest (c :: cur)

/-- Python `str.split()` with no argument: split on whitespace runs,
discarding empty pieces. -/
def splitWs (l : List Char) : List (List Char) :=
  splitWsAux l []

/-- Python `str.lower()` (ASCII case folding). -/
def lowerStr (l : List Char) : List Char :=
  l.map Char.toLower

/-- Python `sub in l` substring test. -/
def containsSub (l sub : List Char) : Bool :=
  match l with
  | [] => sub.isEmpty
  | _ :: rest => sub.isPrefixOf l || containsSub rest sub

/-- Python `str.isdigit()` (ASCII digits): non-empty and all digits. -/
def isDigitStr (l : List Char) : Bool :=
  !l.isEmpty && l.all Char.isDigit

/-! ### The price-pattern regular expression

`price_pattern = re.compile(r'^\s*([$£€]?\d+(\.\d{1,2})?|\d+(\.\d{1,2})?\s*[€$£]?)\s*$')`
(`backend/image_ocr/app/main.py`, line 93).  The regex is embedded as a
deterministic full-match recogniser; greedy consumption of `\d+` / `\d{1,2}` /
`\s*` is equivalent to the backtracking semantics here because every
alternative is followed only by whitespace / an optional currency symbol, so
leaving a digit unconsumed can never rescue a failing match. -/

/-- The currency symbols of the price pattern. -/
def isCurrencyChar (c : Char) : Bool :=
  c == '$' || c == '£' || c == '€'

/-- Consume the optional fraction `(\.\d{1,2})?`: if the input starts with a
dot followed by at least one digit, consume the dot and one or two digits;
otherwise consume nothing. -/
def fracRest (l : List Char) : List Char :=
  match l with
  | '.' :: rest =>
    match rest with
    | a :: rest2 =>
      if a.isDigit then
        match rest2 with
        | b :: rest3 => if b.isDigit then rest3 else rest2
        | [] => rest2
      else l
    | [] => l
  | _ => l

/-- First alternative of the price pattern: `[$£€]?\d+(\.\d{1,2})?`
followed by trailing `\s*$`. -/
def priceAlt1 (m : List Char) : Bool :=
  let m1 := match m with
    | c :: rest => if isCurrencyChar c then rest else m
    | [] => m
  let d := m1.takeWhile Char.isDigit
  let r := m1.dropWhile Char.isDigit
  !d.isEmpty && (fracRest r).all isSpaceChar

/-- Second alternative of the price pattern: `\d+(\.\d{1,2})?\s*[€$£]?`
followed by trailing `\s*$`. -/
def priceAlt2 (m : List Char) : Bool :=
  let d := m.takeWhile Char.isDigit
  let r := m.dropWhile Char.isDigit
  let r2 := (fracRest r).dropWhile isSpaceChar
  let r3 := match r2 with
    | c :: rest => if isCurrencyChar c then rest else r2
    | [] => r2
  !d.isEmpty && r3.all isSpaceChar

/-- Full match of the price pattern against a line. -/
def price_pattern (line : List Char) : Bool :=
  let m := line.dropWhile isSpaceChar
  priceAlt1 m || priceAlt2 m

/-! ### The rule-based menu structurer (`structure_menu_text`) -/

/-- A `{name, description}` record (`dishes.append({...})` in the source). -/
structure Dish where
  name : List Char
  description : List Char
deriving DecidableEq, Repr

/-- Loop state of `structure_menu_text`: `current_dish_name`,
`current_dish_desc` and the accumulated `dishes` list. -/
structure ScanState where
  name : List Char
  desc : List Char
  dishes : List Dish
deriving DecidableEq, Repr

/-- The initial loop state (`current_dish_name = ""`, `current_dish_desc = ""`,
`dishes = []`). -/
def initScan : ScanState := ⟨[], [], []⟩

/-- Python `line[0]`: raises `IndexError` on an empty string. -/
def lineHead (l : List Char) : Except (List Char) Char :=
  match l with
  | [] => Except.error (String.toList "IndexError: string index out of range")
  | c :: _ => Except.ok c

/-- `len(line.split()) <= 2 and all(char.isdigit() or not char.isalpha() for char in line)`
(line 112): a short token made only of digits and punctuation. -/
def shortNonAlphaTok (line : List Char) : Bool :=
  decide ((splitWs line).length ≤ 2) && line.all (fun ch => ch.isDigit || !ch.isAlpha)

/-- Line 110: `if len(line) < 60 and line[0].isupper() or line[0].isdigit():`
with Python's evaluation order (the `and` binds tighter than the `or`, and
`line[0]` is only read when the corresponding operand is reached), followed by
the line-112 exclusion.  Embedded in `Except` because `line[0]` can raise. -/
def is_potential_dish_name (line : List Char) : Except (List Char) Bool :=
  (if line.length < 60 then Except.map Char.isUpper (lineHead line)
   else Except.ok false).bind fun c1 =>
    (if c1 then Except.ok true else Except.map Char.isDigit (lineHead line)).bind fun cond =>
      Except.ok (cond && !shortNonAlphaTok line)

/-- The branch taken when a line is classified as a dish name (lines 115-123):
flush the pending `(name, description)` pair, then start a new one. -/
def startNewDish (st : ScanState) (line : List Char) : ScanState :=
  { name := line
    desc := []
    dishes :=
      st.dishes ++
        (if !st.name.isEmpty && !st.desc.isEmpty then [⟨strip st.name, strip st.desc⟩]
         else if !st.name.isEmpty then [⟨strip st.name, []⟩]
         else []) }

/-- The branch taken when a line is not classified as a dish name
(lines 124-127): append `" " + line` to the pending description if a dish
name is pending, otherwise drop the orphan line. -/
def appendDesc (st : ScanState) (line : List Char) : ScanState :=
  if !st.name.isEmpty then { st with desc := st.desc ++ ' ' :: line } else st

/-- One iteration of the `for line in lines` loop of `structure_menu_text`
(lines 82-127): strip, skip empty lines, skip price lines, classify, update. -/
def processLine (st : ScanState) (rawLine : List Char) : Except (List Char) ScanState :=
  if (strip rawLine).isEmpty then Except.ok st
  else if price_pattern (strip rawLine) then Except.ok st
  else
    match is_potential_dish_name (strip rawLine) with
    | Except.error e => Except.error e
    | Except.ok true => Except.ok (startNewDish st (strip rawLine))
    | Except.ok false => Except.ok (appendDesc st (strip rawLine))

/-- The post-loop filter (lines 140-144): keep a dish only if its stripped
name has more than 3 characters, contains neither "ingredien" nor "menu"
once lowercased, and is not purely numeric. -/
def keepDish (d : Dish) : Bool :=
  let name := strip d.name
  decide (3 < name.length) &&
    !containsSub (lowerStr name) (String.toList "ingredien") &&
    !containsSub (lowerStr name) (String.toList "menu") &&
    !isDigitStr name

/-- The code after the loop (lines 129-146): flush the last pending dish,
blank out whitespace-only descriptions, and apply the post-filter. -/
def finalizeScan (st : ScanState) : List Dish :=
  let dishes :=
    st.dishes ++ (if !st.name.isEmpty then [⟨strip st.name, strip st.desc⟩] else [])
  let dishes :=
    dishes.map fun d =>
      if (strip d.description).isEmpty then { d with description := ([] : List Char) } else d
  dishes.filter keepDish

/-- `structure_menu_text` (`backend/image_ocr/app/main.py`, lines 68-146):
split the stripped raw text on newlines, run the classification loop, then
finalize.  The `Except` layer records the one way the Python function could
fail: an `IndexError` from `line[0]`. -/
def structure_menu_text (raw : List Char) : Except (List Char) (List Dish) :=
  match List.foldlM processLine initScan (splitOnChar '\n' (strip raw)) with
  | Except.error e => Except.error e
  | Except.ok st => Except.ok (finalizeScan st)

/-! ### A pure description of the loop, proved equivalent below -/

/-- The classification outcome for a non-empty trimmed line with first
character `c`: `((len < 60 and c.isupper()) or c.isdigit())` and not a short
digit/punctuation token. -/
def classify (c : Char) (line : List Char) : Bool :=
  ((decide (line.length < 60) && c.isUpper) || c.isDigit) && !shortNonAlphaTok line

/-- Pure (error-free) version of `processLine`, with the `line[0]` access
replaced by pattern matching on the non-empty stripped line. -/
def processLinePure (st : ScanState) (rawLine : List Char) : ScanState :=
  match strip rawLine with
  | [] => st
  | c :: rest =>
    if price_pattern (c :: rest) then st
    else if classify c (c :: rest) then startNewDish st (c :: rest)
    else appendDesc st (c :: rest)

/-- Pure version of `structure_menu_text`. -/
def structurePure (raw : List Char) : List Dish :=
  finalizeScan (List.foldl processLinePure initScan (splitOnChar '\n' (strip raw)))

/-- Whether a raw line of the input is classified as a likely dish name by
the heuristic: it survives stripping, is not a price line, and passes the
line-110/112 classification. -/
def classifiedAsName (rawLine : List Char) : Bool :=
  match strip rawLine with
  | [] => false
  | c :: rest => !price_pattern (c :: rest) && classify c (c :: rest)

theorem is_potential_dish_name_cons (c : Char) (rest : List Char) :
    is_potential_dish_name (c :: rest) = Except.ok (classify c (c :: rest)) := by
  unfold is_potential_dish_name classify lineHead
  simp only [List.length_cons]
  by_cases h60 : rest.length + 1 < 60
  · by_cases hu : c.isUpper
    · simp [h60, hu, Except.map, Except.bind]
    · simp [h60, hu, Except.map, Except.bind]
  · simp [h60, Except.map, Except.bind]

theorem processLine_eq_pure (st : ScanState) (rawLine : List Char) :
    processLine st rawLine = Except.ok (processLinePure st rawLine) := by
  unfold processLine processLinePure
  cases hs : strip rawLine with
  | nil => simp
  | cons c rest =>
    simp only [List.isEmpty_cons, Bool.false_eq_true, if_false]
    by_cases hp : price_pattern (c :: rest)
    · simp [hp]
    · simp only [hp, if_false, is_potential_dish_name_cons]
      by_cases hc : classify c (c :: rest) <;> simp [hc]

theorem foldlM_processLine_eq (lines : List (List Char)) :
    ∀ st : ScanState,
      List.foldlM processLine st lines = Except.ok (List.foldl processLinePure st lines) := by
  induction lines with
  | nil => intro st; rfl
  | cons l rest ih =>
    intro st
    rw [List.foldlM_cons, processLine_eq_pure]
    simp only [List.foldl_cons]
    exact ih (processLinePure st l)

/-- `structure_menu_text` never raises: it always reduces to the pure scan. -/
theorem structure_menu_text_eq_pure (raw : List Char) :
    structure_menu_text raw = Except.ok (structurePure raw) := by
  unfold structure_menu_text structurePure
  rw [foldlM_processLine_eq]

/-! ### Helper lemmas about `dropWhile` and `strip` -/

theorem dropWhile_head_false (p : Char → Bool) :
    ∀ (l : List Char) (a : Char), (l.dropWhile p).head? = some a → p a = false := by
  intro l
  induction l with
  | nil => intro a h; simp [List.dropWhile] at h
  | cons c rest ih =>
    intro a h
    by_cases hc : p c
    · exact ih a (by simpa [List.dropWhile, hc] using h)
    · simp [List.dropWhile, hc] at h
      simp [← h, hc]

theorem dropWhile_eq_self_of_head (p : Char → Bool) (l : List Char)
    (h : ∀ a, l.head? = some a → p a = false) : l.dropWhile p = l := by
  cases l with
  | nil => rfl
  | cons c rest => simp [List.dropWhile, h c rfl]

theorem exists_append_dropWhile (p : Char → Bool) (l : List Char) :
    ∃ s, l = s ++ l.dropWhile p := by
  induction l with
  | nil => exact ⟨[], rfl⟩
  | cons c rest ih =>
    by_cases hc : p c
    · obtain ⟨s, hs⟩ := ih
      exact ⟨c :: s, by simp [List.dropWhile, hc, ← hs]⟩
    · exact ⟨[], by simp [List.dropWhile, hc]⟩

theorem head?_append_left {α : Type} (xs ys : List α) (h : xs ≠ []) :
    (xs ++ ys).head? = xs.head? := by
  cases xs with
  | nil => exact absurd rfl h
  | cons a t => rfl

/-- Python `strip` is idempotent; the record names appended by
`structure_menu_text` are therefore invariant under a further `strip`. -/
theorem strip_idem (l : List Char) : strip (strip l) = strip l := by
  unfold strip
  cases ht : ((l.dropWhile isSpaceChar).reverse.dropWhile isSpaceChar) with
  | nil => rfl
  | cons b tb =>
    have htne : (b :: tb) ≠ ([] : List Char) := by simp
    obtain ⟨s, hs⟩ := exists_append_dropWhile isSpaceChar (l.dropWhile isSpaceChar).reverse
    rw [ht] at hs
    have hu : l.dropWhile isSpaceChar = (b :: tb).reverse ++ s.reverse := by
      have := congrArg List.reverse hs
      simpa [List.reverse_append] using this
    have hrevne : ((b :: tb).reverse : List Char) ≠ [] := by simp
    have hheadrev : ∀ a, ((b :: tb).reverse : List Char).head? = some a → isSpaceChar a = false := by
      intro a ha
      apply dropWhile_head_false isSpaceChar l a
      rw [hu, head?_append_left _ _ hrevne]
      exact ha
    have h1 : ((b :: tb).reverse : List Char).dropWhile isSpaceChar = (b :: tb).reverse :=
      dropWhile_eq_self_of_head _ _ hheadrev
    have hheadt : ∀ a, ((b :: tb) : List Char).head? = some a → isSpaceChar a = false := by
      intro a ha
      have hb : b = a := by simpa using ha
      have hb2 := dropWhile_head_false isSpaceChar (l.dropWhile isSpaceChar).reverse b (by rw [ht]; rfl)
      rw [← hb]
      exact hb2
    have h2 : ((b :: tb) : List Char).dropWhile isSpaceChar = b :: tb :=
      dropWhile_eq_self_of_head _ _ hheadt
    rw [h1, List.reverse_reverse, h2]

/-! ### Invariants of the scan loop -/

/-- Every record accumulated so far has a name invariant under `strip`. -/
def NamesStripped (st : ScanState) : Prop :=
  ∀ d ∈ st.dishes, strip d.name = d.name

theorem namesStripped_init : NamesStripped initScan := by
  intro d hd; simp [initScan] at hd

theorem mem_startNewDish_dishes (st : ScanState) (line : List Char) (d : Dish)
    (hd : d ∈ (startNewDish st line).dishes) :
    d ∈ st.dishes ∨ d.name = strip st.name := by
  unfold startNewDish at hd
  rcases List.mem_append.1 hd with h | h
  · exact Or.inl h
  · right
    by_cases h1 : !st.name.isEmpty && !st.desc.isEmpty
    · simp [h1] at h; rw [h]
    · by_cases h2 : !st.name.isEmpty
      · simp [h1, h2] at h
        by_cases hdsc : st.desc = ([] : List Char) <;> simp [hdsc] at h <;> rw [h]
      · simp [h1, h2] at h

theorem namesStripped_processLinePure (st : ScanState) (l : List Char)
    (h : NamesStripped st) : NamesStripped (processLinePure st l) := by
  unfold processLinePure
  cases hs : strip l with
  | nil => exact h
  | cons c rest =>
    by_cases hp : price_pattern (c :: rest)
    · simpa [hp] using h
    · by_cases hc : classify c (c :: rest)
      · simp only [hp, if_false, hc, if_true]
        intro d hd
        rcases mem_startNewDish_dishes st (c :: rest) d hd with h' | h'
        · exact h d h'
        · rw [h']; exact strip_idem st.name
      · simp only [hp, if_false, hc, if_false]
        unfold appendDesc
        by_cases h2 : !st.name.isEmpty <;> simpa [h2] using h

theorem namesStripped_foldl (lines : List (List Char)) :
    ∀ st : ScanState, NamesStripped st →
      NamesStripped (List.foldl processLinePure st lines) := by
  induction lines with
  | nil => intro st h; exact h
  | cons l rest ih =>
    intro st h
    exact ih _ (namesStripped_processLinePure st l h)

theorem structurePure_mem (raw : List Char) (d : Dish) (hd : d ∈ structurePure raw) :
    strip d.name = d.name ∧ keepDish d = true := by
  unfold structurePure finalizeScan at hd
  rw [List.mem_filter] at hd
  refine ⟨?_, hd.2⟩
  obtain ⟨d0, hd0, hmap⟩ := List.mem_map.1 hd.1
  have hname : d.name = d0.name := by
    by_cases hdesc : (strip d0.description).isEmpty <;> simp [hdesc] at hmap <;>
      rw [← hmap]
  rw [hname]
  have hst := namesStripped_foldl (splitOnChar '\n' (strip raw)) initScan namesStripped_init
  simp only [List.mem_append] at hd0
  rcases hd0 with hd0 | hd0
  · exact hst d0 hd0
  · by_cases hnm : !(List.foldl processLinePure initScan (splitOnChar '\n' (strip raw))).name.isEmpty
    · simp [hnm] at hd0
      rw [hd0]
      exact strip_idem _
    · simp [hnm] at hd0

theorem foldl_no_names (lines : List (List Char))
    (h : ∀ l ∈ lines, classifiedAsName l = false) :
    List.foldl processLinePure initScan lines = initScan := by
  induction lines with
  | nil => rfl
  | cons l rest ih =>
    have h1 : classifiedAsName l = false := h l (List.Mem.head _)
    have h2 : processLinePure initScan l = initScan := by
      unfold processLinePure
      unfold classifiedAsName at h1
      cases hs : strip l with
      | nil => rfl
      | cons c cs =>
        rw [hs] at h1
        by_cases hp : price_pattern (c :: cs)
        · simp [hp]
        · have hcl : classify c (c :: cs) = false := by simpa [hp] using h1
          simp [hp, hcl, appendDesc, initScan]
    rw [List.foldl_cons, h2]
    exact ih (fun l hl => h l (List.Mem.tail _ hl))

/-! ### Claims about the rule-based structurer -/

/-- C1 (counterexample): on the spec's example input, `structure_menu_text`
does **not** return the two claimed records.  "Grilled chicken, salsa" and
"Beef patty" start with an uppercase letter and are short, so each is
classified as a dish name itself; the function returns four records with
empty descriptions (the price line is still discarded). -/
theorem c1_two_records_counterexample :
    structure_menu_text
        (String.toList "Spicy Tacos\nGrilled chicken, salsa\n$9.99\nBurger\nBeef patty") =
      Except.ok
        [⟨String.toList "Spicy Tacos", []⟩, ⟨String.toList "Grilled chicken, salsa", []⟩,
          ⟨String.toList "Burger", []⟩, ⟨String.toList "Beef patty", []⟩] ∧
    ([⟨String.toList "Spicy Tacos", []⟩, ⟨String.toList "Grilled chicken, salsa", []⟩,
        ⟨String.toList "Burger", []⟩, ⟨String.toList "Beef patty", []⟩] : List Dish) ≠
      [⟨String.toList "Spicy Tacos", String.toList "Grilled chicken, salsa"⟩,
        ⟨String.toList "Burger", String.toList "Beef patty"⟩] :=
  ⟨rfl, by decide⟩

/-- C1 (amended): on the spec's example input, `structure_menu_text` returns
exactly four records — `{Spicy Tacos, ""}`, `{Grilled chicken, salsa, ""}`,
`{Burger, ""}`, `{Beef patty, ""}` — and the price line `$9.99` does not
appear in any of them. -/
theorem c1_four_records :
    structure_menu_text
        (String.toList "Spicy Tacos\nGrilled chicken, salsa\n$9.99\nBurger\nBeef patty") =
      Except.ok
        [⟨String.toList "Spicy Tacos", []⟩, ⟨String.toList "Grilled chicken, salsa", []⟩,
          ⟨String.toList "Burger", []⟩, ⟨String.toList "Beef patty", []⟩] :=
  rfl

/-- C2 (code bug): the line consisting of the digit `1` followed by sixty
letters `a` has length 61 ≥ 60, is not a price line, and yet is classified
as a likely dish name (and is even returned as a dish by
`structure_menu_text`): in `len(line) < 60 and line[0].isupper() or
line[0].isdigit()` the `or` operand escapes the length bound, contradicting
the code's own comment "Not too long (to avoid picking up paragraphs as
names)" and the claim's conjunction. -/
theorem c2_length_bound_escaped_for_digit_lines :
    ('1' :: List.replicate 60 'a').length = 61 ∧
      price_pattern ('1' :: List.replicate 60 'a') = false ∧
      classifiedAsName ('1' :: List.replicate 60 'a') = true ∧
      structure_menu_text ('1' :: List.replicate 60 'a') =
        Except.ok [⟨'1' :: List.replicate 60 'a', []⟩] :=
  ⟨rfl, rfl, rfl, rfl⟩

/-- C5: every record returned by `structure_menu_text` has a name longer
than 3 characters whose lowercased form contains neither "ingredien" nor
"menu" and which is not purely numeric (the post-filter of lines 138-146). -/
theorem c5_post_filter_on_names (raw : List Char) (l : List Dish)
    (h : structure_menu_text raw = Except.ok l) (d : Dish) (hd : d ∈ l) :
    3 < d.name.length ∧
      containsSub (lowerStr d.name) (String.toList "ingredien") = false ∧
      containsSub (lowerStr d.name) (String.toList "menu") = false ∧
      isDigitStr d.name = false := by
  rw [structure_menu_text_eq_pure] at h
  have hl : structurePure raw = l := by injection h
  subst hl
  obtain ⟨hs, hk⟩ := structurePure_mem raw d hd
  unfold keepDish at hk
  rw [hs] at hk
  simp only [Bool.and_eq_true, Bool.not_eq_true', decide_eq_true_eq] at hk
  exact ⟨hk.1.1.1, hk.1.1.2, hk.1.2, hk.2⟩

/-- Witness for C5 at the concrete input "Burger". -/
theorem c5_post_filter_on_names_witness :
    structure_menu_text (String.toList "Burger") =
        Except.ok [⟨String.toList "Burger", []⟩] ∧
      (3 < (String.toList "Burger").length ∧
        containsSub (lowerStr (String.toList "Burger")) (String.toList "ingredien") = false ∧
        containsSub (lowerStr (String.toList "Burger")) (String.toList "menu") = false ∧
        isDigitStr (String.toList "Burger") = false) :=
  ⟨rfl,
    c5_post_filter_on_names (String.toList "Burger") [⟨String.toList "Burger", []⟩] rfl
      ⟨String.toList "Burger", []⟩ (List.Mem.head _)⟩

/-- C6: if no line of the input is classified as a likely dish name, then
`structure_menu_text` returns the empty list. -/
theorem c6_no_name_lines_empty_output (raw : List Char)
    (h : ∀ l ∈ splitOnChar '\n' (strip raw), classifiedAsName l = false) :
    structure_menu_text raw = Except.ok [] := by
  rw [structure_menu_text_eq_pure]
  unfold structurePure
  rw [foldl_no_names _ h]
  rfl

/-- Witness for C6 at the concrete input "the\n$9.99" (a lowercase line and
a price line; neither is classified as a dish name). -/
theorem c6_no_name_lines_empty_output_witness :
    (∀ l ∈ splitOnChar '\n' (strip (String.toList "the\n$9.99")),
        classifiedAsName l = false) ∧
      structure_menu_text (String.toList "the\n$9.99") = Except.ok [] :=
  ⟨by decide, c6_no_name_lines_empty_output (String.toList "the\n$9.99") (by decide)⟩

/-- C10: `structure_menu_text` is total — for every input it returns a list
of dishes, never the `IndexError` that `line[0]` would raise on an empty
line (empty lines are skipped before the access, and a price-pattern match
never leaves an empty classified line). -/
theorem c10_structure_menu_text_total (raw : List Char) :
    ∃ dishes, structure_menu_text raw = Except.ok dishes :=
  ⟨structurePure raw, structure_menu_text_eq_pure raw⟩


/-! ### The LLM-backed NLU service (`backend/nlu_enhancement/app/main.py`)

The external chat-completion call (`call_llm`) is modelled by taking its
result — the parsed JSON value of the model's response — as the input of
each step.  Python `ValueError` / `KeyError` / `TypeError` are explicit
error values; the `except ValueError` handler of each step converts only
`ValueError` into an HTTP 500 failure and leaves the others unhandled (they
escape to the web framework).  F-string interpolation of an offending JSON
value into an error message is modelled structurally: an error carries its
fixed message text together with the embedded JSON value. -/

/-- A parsed JSON value (the result of `json.loads`). -/
inductive Json where
  | null
  | bool (b : Bool)
  | num (n : Int)
  | str (s : List Char)
  | arr (items : List Json)
  | obj (fields : List (List Char × Json))

/-- The JSON key "dishes". -/
def kDishes : List Char := String.toList "dishes"

/-- The JSON key "name". -/
def kName : List Char := String.toList "name"

/-- The JSON key "description". -/
def kDescription : List Char := String.toList "description"

/-- The JSON key "dish_name". -/
def kDishName : List Char := String.toList "dish_name"

/-- The JSON key "image_prompt". -/
def kImagePrompt : List Char := String.toList "image_prompt"

/-- Dictionary lookup on the fields of a JSON object. -/
def getField : List (List Char × Json) → List Char → Option Json
  | [], _ => none
  | (k, v) :: rest, key => if k = key then some v else getField rest key

/-- Python `key in dict`. -/
def hasKey (fields : List (List Char × Json)) (key : List Char) : Bool :=
  (getField fields key).isSome

/-- A raised Python exception relevant to the NLU service. -/
inductive PyErr where
  | valueError (msg : List Char) (embedded : Option Json)
  | keyError (key : List Char)
  | typeError (msg : List Char)

/-- Result of one NLU step as seen by the HTTP layer: a value, an
`HTTPException` (status + detail message text + interpolated JSON value),
or an exception that escaped the step's `except ValueError` handler. -/
inductive StepResult (α : Type) where
  | ok (val : α)
  | httpError (status : Nat) (msg : List Char) (embedded : Option Json)
  | unhandled (e : PyErr)

/-- Whether a step produced a value. -/
def StepResult.isOk {α : Type} : StepResult α → Bool
  | StepResult.ok _ => true
  | _ => false

/-- The `except ValueError as e: raise HTTPException(500, prefixText + e)`
wrapper at the end of each step (lines 155-157 and 205-206). -/
def runStep {α : Type} (prefixText : List Char) : Except PyErr α → StepResult α
  | Except.ok a => StepResult.ok a
  | Except.error (PyErr.valueError m j) => StepResult.httpError 500 (prefixText ++ m) j
  | Except.error e => StepResult.unhandled e

/-- Python `j[key]` for a string key: `KeyError` on a dict without the key,
`TypeError` on any non-dict value. -/
def subscriptStr (j : Json) (key : List Char) : Except PyErr Json :=
  match j with
  | Json.obj fields =>
    match getField fields key with
    | some v => Except.ok v
    | none => Except.error (PyErr.keyError key)
  | _ => Except.error (PyErr.typeError (String.toList "value is not subscriptable by a string key"))

/-- A structured dish as built on line 150:
`DishStructured(name=item["name"], description=item.get("description", ""))`.
Field values are kept as raw JSON values (pydantic's coercion of non-string
values is outside the scope of the claims). -/
structure DishStructured where
  name : Json
  description : Json

/-- A prompt record as built on line 203:
`DishPrompt(dish_name=item["dish_name"], image_prompt=item["image_prompt"])`. -/
structure DishPrompt where
  dish_name : Json
  image_prompt : Json

/-- Message of the line-148 `ValueError` (the offending item is carried
separately, as the interpolated JSON value). -/
def invalidDishItemMsg : List Char :=
  String.toList "LLM returned an invalid dish item (missing \x27name\x27 or not an object): "

/-- Message of the line-202 `ValueError`. -/
def invalidPromptItemMsg : List Char :=
  String.toList
    "LLM returned an invalid prompt item (missing \x27dish_name\x27 or \x27image_prompt\x27 or not an object): "

/-- Message of the line-138 `ValueError`. -/
def badDishObjectMsg : List Char :=
  String.toList "LLM returned a single object that does not match expected dish structure: "

/-- Message of the line-193 `ValueError`. -/
def badPromptObjectMsg : List Char :=
  String.toList "LLM returned a single object that does not match expected prompt structure: "

/-- Message of the line-141 / line-196 `ValueError`. -/
def notArrayMsg : List Char :=
  String.toList "LLM did not return a JSON array after correction attempt."

/-- `not isinstance(item, dict) or "name" not in item` is false (line 146):
the item is an object carrying a "name" key. -/
def validDishItem (item : Json) : Bool :=
  match item with
  | Json.obj f => hasKey f kName
  | _ => false

/-- `not isinstance(item, dict) or "dish_name" not in item or "image_prompt" not in item`
is false (line 201). -/
def validPromptItem (item : Json) : Bool :=
  match item with
  | Json.obj f => hasKey f kDishName && hasKey f kImagePrompt
  | _ => false

/-- The first item of the list failing the validity check, if any — the
item whose `ValueError` aborts the per-item loop. -/
def firstInvalid (valid : Json → Bool) : List Json → Option Json
  | [] => none
  | item :: rest => if valid item then firstInvalid valid rest else some item

/-- The per-item validation loop of lines 144-153: build the structured
dishes, raising `ValueError` (with the offending item) at the first item
that is not an object with a "name" key. -/
def buildDishes : List Json → Except PyErr (List DishStructured)
  | [] => Except.ok []
  | item :: rest =>
    match item with
    | Json.obj f =>
      if hasKey f kName then
        match buildDishes rest with
        | Except.ok l =>
          Except.ok
            (⟨(getField f kName).getD Json.null,
              (getField f kDescription).getD (Json.str [])⟩ :: l)
        | Except.error e => Except.error e
      else Except.error (PyErr.valueError invalidDishItemMsg (some item))
    | _ => Except.error (PyErr.valueError invalidDishItemMsg (some item))

/-- The per-item validation loop of lines 199-203 for prompt records. -/
def buildPrompts : List Json → Except PyErr (List DishPrompt)
  | [] => Except.ok []
  | item :: rest =>
    match item with
    | Json.obj f =>
      if hasKey f kDishName && hasKey f kImagePrompt then
        match buildPrompts rest with
        | Except.ok l =>
          Except.ok
            (⟨(getField f kDishName).getD Json.null,
              (getField f kImagePrompt).getD Json.null⟩ :: l)
        | Except.error e => Except.error e
      else Except.error (PyErr.valueError invalidPromptItemMsg (some item))
    | _ => Except.error (PyErr.valueError invalidPromptItemMsg (some item))

/-- The dict-to-list repair of lines 132-138, applied to the value found
under the "dishes" key: a dict with both "name" and "description" keys is
wrapped into a one-element list; any other dict raises `ValueError`
embedding the whole parsed response; non-dicts pass through. -/
def dishesArrayRepair (llm_response dishes : Json) : Except PyErr Json :=
  match dishes with
  | Json.obj f =>
    if hasKey f kName && hasKey f kDescription then Except.ok (Json.arr [dishes])
    else Except.error (PyErr.valueError badDishObjectMsg (some llm_response))
  | _ => Except.ok dishes

/-- Lines 140-141 / 195-196: `if not isinstance(..., list): raise ValueError(msg)`. -/
def requireArr (j : Json) (msg : List Char) : Except PyErr (List Json) :=
  match j with
  | Json.arr items => Except.ok items
  | _ => Except.error (PyErr.valueError msg none)

/-- Body of `extract_and_structure_dishes_with_llm` after the LLM call
(lines 127-153): take `llm_response["dishes"]`, repair a lone dict, demand
a list, then validate and build each item. -/
def extractDishesBody (llm_response : Json) : Except PyErr (List DishStructured) :=
  match subscriptStr llm_response kDishes with
  | Except.error e => Except.error e
  | Except.ok dishes0 =>
    match dishesArrayRepair llm_response dishes0 with
    | Except.error e => Except.error e
    | Except.ok dishes1 =>
      match requireArr dishes1 notArrayMsg with
      | Except.error e => Except.error e
      | Except.ok items => buildDishes items

/-- `extract_and_structure_dishes_with_llm`
(`backend/nlu_enhancement/app/main.py`, lines 91-158), as a function of the
parsed LLM response. -/
def extract_and_structure_dishes_with_llm (llm_response : Json) :
    StepResult (List DishStructured) :=
  runStep (String.toList "Error parsing LLM structured output: ") (extractDishesBody llm_response)

/-- The dict-to-list repair of lines 188-193, applied to the parsed
response itself: a dict with both "dish_name" and "image_prompt" keys is
wrapped into a one-element list; any other dict raises `ValueError`
embedding the response; non-dicts pass through. -/
def promptArrayRepair (llm_response : Json) : Except PyErr Json :=
  match llm_response with
  | Json.obj f =>
    if hasKey f kDishName && hasKey f kImagePrompt then Except.ok (Json.arr [llm_response])
    else Except.error (PyErr.valueError badPromptObjectMsg (some llm_response))
  | _ => Except.ok llm_response

/-- Body of `generate_prompts_with_llm` after the LLM call (lines 184-204). -/
def generatePromptsBody (llm_response : Json) : Except PyErr (List DishPrompt) :=
  match promptArrayRepair llm_response with
  | Except.error e => Except.error e
  | Except.ok repaired =>
    match requireArr repaired notArrayMsg with
    | Except.error e => Except.error e
    | Except.ok items => buildPrompts items

/-- `generate_prompts_with_llm` (`backend/nlu_enhancement/app/main.py`,
lines 160-206), as a function of the parsed LLM response. -/
def generate_prompts_with_llm (llm_response : Json) : StepResult (List DishPrompt) :=
  runStep (String.toList "Error parsing LLM prompt output: ") (generatePromptsBody llm_response)

/-! ### Claims about the LLM response validation/repair -/

/-- C3 (counterexample): in the structuring step, a parsed response that is
itself a single JSON object with the record keys "name" and "description"
is **not** wrapped into a one-element array: `llm_response["dishes"]`
raises `KeyError`, which the step's `except ValueError` does not catch, so
the step fails without producing a value. -/
theorem c3_bare_record_not_wrapped :
    extract_and_structure_dishes_with_llm
        (Json.obj [(kName, Json.str (String.toList "Taco")),
          (kDescription, Json.str (String.toList "Crunchy"))]) =
      StepResult.unhandled (PyErr.keyError kDishes) ∧
    StepResult.isOk
        (extract_and_structure_dishes_with_llm
          (Json.obj [(kName, Json.str (String.toList "Taco")),
            (kDescription, Json.str (String.toList "Crunchy"))])) = false :=
  ⟨rfl, rfl⟩

/-- C3 (amended): the object-for-array repair applies, in the prompt step,
to the parsed response itself and, in the structuring step, to the value
found under the "dishes" key of the parsed response.  A lone object with
the expected record keys is wrapped into a one-element array; a lone
object lacking them makes the step fail with an HTTP 500 error (embedding
the parsed response) rather than return a value. -/
theorem c3_object_repair :
    (∀ fields, hasKey fields kDishName = true → hasKey fields kImagePrompt = true →
        generate_prompts_with_llm (Json.obj fields) =
          StepResult.ok
            [⟨(getField fields kDishName).getD Json.null,
              (getField fields kImagePrompt).getD Json.null⟩]) ∧
    (∀ fields, (hasKey fields kDishName && hasKey fields kImagePrompt) = false →
        generate_prompts_with_llm (Json.obj fields) =
          StepResult.httpError 500
            (String.toList "Error parsing LLM prompt output: " ++ badPromptObjectMsg)
            (some (Json.obj fields))) ∧
    (∀ fields, hasKey fields kName = true → hasKey fields kDescription = true →
        extract_and_structure_dishes_with_llm (Json.obj [(kDishes, Json.obj fields)]) =
          StepResult.ok
            [⟨(getField fields kName).getD Json.null,
              (getField fields kDescription).getD (Json.str [])⟩]) ∧
    (∀ fields, (hasKey fields kName && hasKey fields kDescription) = false →
        extract_and_structure_dishes_with_llm (Json.obj [(kDishes, Json.obj fields)]) =
          StepResult.httpError 500
            (String.toList "Error parsing LLM structured output: " ++ badDishObjectMsg)
            (some (Json.obj [(kDishes, Json.obj fields)]))) := by
  refine ⟨?_, ?_, ?_, ?_⟩
  · intro fields h1 h2
    unfold generate_prompts_with_llm generatePromptsBody promptArrayRepair
    simp [h1, h2, requireArr, buildPrompts, runStep]
  · intro fields h
    unfold generate_prompts_with_llm generatePromptsBody promptArrayRepair
    simp [h, runStep]
  · intro fields h1 h2
    unfold extract_and_structure_dishes_with_llm extractDishesBody
    simp [subscriptStr, getField, dishesArrayRepair, h1, h2, requireArr, buildDishes, runStep]
  · intro fields h
    unfold extract_and_structure_dishes_with_llm extractDishesBody
    simp [subscriptStr, getField, dishesArrayRepair, h, runStep]

/-- Witness for C3 at a concrete lone prompt object. -/
theorem c3_object_repair_witness :
    generate_prompts_with_llm
        (Json.obj [(kDishName, Json.str (String.toList "Burger")),
          (kImagePrompt, Json.str (String.toList "A juicy burger"))]) =
      StepResult.ok
        [⟨Json.str (String.toList "Burger"), Json.str (String.toList "A juicy burger")⟩] := by
  have h := c3_object_repair.1
      [(kDishName, Json.str (String.toList "Burger")),
        (kImagePrompt, Json.str (String.toList "A juicy burger"))] rfl rfl
  exact h

theorem buildDishes_first_invalid (items : List Json) :
    ∀ bad : Json, firstInvalid validDishItem items = some bad →
      buildDishes items = Except.error (PyErr.valueError invalidDishItemMsg (some bad)) := by
  induction items with
  | nil => intro bad h; simp [firstInvalid] at h
  | cons item rest ih =>
    intro bad h
    by_cases hv : validDishItem item = true
    · rw [firstInvalid, if_pos hv] at h
      cases item with
      | obj f =>
        have hk : hasKey f kName = true := by simpa [validDishItem] using hv
        simp [buildDishes, hk, ih bad h]
      | null => simp [validDishItem] at hv
      | bool b => simp [validDishItem] at hv
      | num n => simp [validDishItem] at hv
      | str s => simp [validDishItem] at hv
      | arr a => simp [validDishItem] at hv
    · rw [firstInvalid, if_neg hv] at h
      have hb : item = bad := by injection h
      subst hb
      cases item with
      | obj f =>
        have hk : hasKey f kName = false := by simpa [validDishItem] using hv
        simp [buildDishes, hk]
      | null => simp [buildDishes]
      | bool b => simp [buildDishes]
      | num n => simp [buildDishes]
      | str s => simp [buildDishes]
      | arr a => simp [buildDishes]

theorem buildPrompts_first_invalid (items : List Json) :
    ∀ bad : Json, firstInvalid validPromptItem items = some bad →
      buildPrompts items = Except.error (PyErr.valueError invalidPromptItemMsg (some bad)) := by
  induction items with
  | nil => intro bad h; simp [firstInvalid] at h
  | cons item rest ih =>
    intro bad h
    by_cases hv : validPromptItem item = true
    · rw [firstInvalid, if_pos hv] at h
      cases item with
      | obj f =>
        have hk : (hasKey f kDishName && hasKey f kImagePrompt) = true := by
          simpa [validPromptItem] using hv
        simp [buildPrompts, hk, ih bad h]
      | null => simp [validPromptItem] at hv
      | bool b => simp [validPromptItem] at hv
      | num n => simp [validPromptItem] at hv
      | str s => simp [validPromptItem] at hv
      | arr a => simp [validPromptItem] at hv
    · rw [firstInvalid, if_neg hv] at h
      have hb : item = bad := by injection h
      subst hb
      cases item with
      | obj f =>
        have hk : (hasKey f kDishName && hasKey f kImagePrompt) = false := by
          simpa [validPromptItem] using hv
        simp [buildPrompts, hk]
      | null => simp [buildPrompts]
      | bool b => simp [buildPrompts]
      | num n => simp [buildPrompts]
      | str s => simp [buildPrompts]
      | arr a => simp [buildPrompts]

/-- C4: when the parsed array contains a record that is not an object with
the required keys ("name" for structured dishes; "dish_name" and
"image_prompt" for prompts), the step fails with an HTTP 500 whose detail
embeds the first offending record, and no (partial) result is returned. -/
theorem c4_invalid_record_http_failure :
    (∀ (items : List Json) (bad : Json),
        firstInvalid validDishItem items = some bad →
        extract_and_structure_dishes_with_llm (Json.obj [(kDishes, Json.arr items)]) =
          StepResult.httpError 500
            (String.toList "Error parsing LLM structured output: " ++ invalidDishItemMsg)
            (some bad)) ∧
    (∀ (items : List Json) (bad : Json),
        firstInvalid validPromptItem items = some bad →
        generate_prompts_with_llm (Json.arr items) =
          StepResult.httpError 500
            (String.toList "Error parsing LLM prompt output: " ++ invalidPromptItemMsg)
            (some bad)) := by
  constructor
  · intro items bad h
    unfold extract_and_structure_dishes_with_llm extractDishesBody
    simp [subscriptStr, getField, dishesArrayRepair, requireArr,
      buildDishes_first_invalid items bad h, runStep]
  · intro items bad h
    unfold generate_prompts_with_llm generatePromptsBody
    simp [promptArrayRepair, requireArr, buildPrompts_first_invalid items bad h, runStep]

/-- Witness for C4 at a concrete array containing a non-object record. -/
theorem c4_invalid_record_http_failure_witness :
    firstInvalid validDishItem [Json.str (String.toList "oops")] =
        some (Json.str (String.toList "oops")) ∧
      extract_and_structure_dishes_with_llm
          (Json.obj [(kDishes, Json.arr [Json.str (String.toList "oops")])]) =
        StepResult.httpError 500
          (String.toList "Error parsing LLM structured output: " ++ invalidDishItemMsg)
          (some (Json.str (String.toList "oops"))) :=
  ⟨rfl,
    c4_invalid_record_http_failure.1 [Json.str (String.toList "oops")]
      (Json.str (String.toList "oops")) rfl⟩

/-! ### The image generation service (`backend/Image_Gen/main.py`)

The diffusion pipeline call itself is external (`pipeline(...)` on the
GPU); it is modelled by an `InferOutcome` input describing how the call
ends: an image (already PNG- and base64-encoded), a
`torch.cuda.OutOfMemoryError`, or any other exception. -/

/-- The per-model inference hyperparameters chosen by lines 85-113. -/
structure GenParams where
  num_inference_steps : Nat
  guidance_scale : Rat
  height : Nat
  width : Nat

/-- The `if MODEL_ID == "segmind/SSD-1B" ... elif "sdxl-lightning-4step" in
MODEL_ID ... else` chain of lines 91-113: the first branch compares for
equality, the other four test substring containment, and the fallback is
`num_inference_steps = 25`, `guidance_scale = 7.5`.  Height and width are
always `DEFAULT_HEIGHT = DEFAULT_WIDTH = 1024`. -/
def selectParams (model_id : List Char) : GenParams :=
  if model_id = String.toList "segmind/SSD-1B" then ⟨20, 7.0, 1024, 1024⟩
  else if containsSub model_id (String.toList "sdxl-lightning-4step") then ⟨4, 0.0, 1024, 1024⟩
  else if containsSub model_id (String.toList "sdxl-lightning-8step") then ⟨8, 0.0, 1024, 1024⟩
  else if containsSub model_id (String.toList "sdxl-turbo") then ⟨1, 0.0, 1024, 1024⟩
  else if containsSub model_id (String.toList "stable-diffusion-xl-base-1.0") then
    ⟨30, 7.5, 1024, 1024⟩
  else ⟨25, 7.5, 1024, 1024⟩

/-- The request body of `POST /generate_image/`. -/
structure ImageGenerationRequest where
  prompt : List Char
  negative_prompt : List Char

/-- The response body: the generated image as base64 text. -/
structure ImageGenerationResponse where
  image_base64 : List Char

/-- An `HTTPException` of the image service. -/
structure HttpError where
  status : Nat
  detail : List Char
deriving DecidableEq

/-- How the synchronous diffusion call ends. -/
inductive InferOutcome where
  | success (image_base64 : List Char)
  | cudaOutOfMemory
  | otherFailure (msg : List Char)

/-- `generate_image` (`backend/Image_Gen/main.py`, lines 75-153): reject
when the pipeline is not loaded (503), compute the per-model parameters,
run the inference, and map `torch.cuda.OutOfMemoryError` to HTTP 507 and
every other exception to HTTP 500. -/
def generate_image (model_id : List Char) (pipelineLoaded : Bool)
    (outcome : InferOutcome) (req : ImageGenerationRequest) :
    Except HttpError ImageGenerationResponse :=
  if !pipelineLoaded then
    Except.error ⟨503, String.toList "Image generation model not loaded yet."⟩
  else
    let _params := selectParams model_id
    match outcome with
    | InferOutcome.success img => Except.ok ⟨img⟩
    | InferOutcome.cudaOutOfMemory =>
      Except.error ⟨507, String.toList "GPU out of memory. Try a smaller image size or model."⟩
    | InferOutcome.otherFailure msg =>
      Except.error ⟨500, String.toList "Image generation failed: " ++ msg⟩

/-! ### Claims about the image generation service -/

/-- C7 (counterexample): the model identifier "my-sdxl-turbo" is not one of
the five explicitly recognized identifiers, yet it does not get the
fallback parameters: containment of "sdxl-turbo" selects
`num_inference_steps = 1`. -/
theorem c7_substring_recognition_counterexample :
    (String.toList "my-sdxl-turbo" ∉
        [String.toList "segmind/SSD-1B", String.toList "sdxl-lightning-4step",
          String.toList "sdxl-lightning-8step", String.toList "sdxl-turbo",
          String.toList "stable-diffusion-xl-base-1.0"]) ∧
      (selectParams (String.toList "my-sdxl-turbo")).num_inference_steps = 1 ∧
      (1 : Nat) ≠ 25 :=
  ⟨by decide, rfl, by decide⟩

/-- C7 (amended): the fallback `num_inference_steps = 25`,
`guidance_scale = 7.5` applies exactly when the configured model identifier
is not equal to "segmind/SSD-1B" and contains none of
"sdxl-lightning-4step", "sdxl-lightning-8step", "sdxl-turbo",
"stable-diffusion-xl-base-1.0" as a substring. -/
theorem c7_unknown_model_fallback (model_id : List Char)
    (h1 : model_id ≠ String.toList "segmind/SSD-1B")
    (h2 : containsSub model_id (String.toList "sdxl-lightning-4step") = false)
    (h3 : containsSub model_id (String.toList "sdxl-lightning-8step") = false)
    (h4 : containsSub model_id (String.toList "sdxl-turbo") = false)
    (h5 : containsSub model_id (String.toList "stable-diffusion-xl-base-1.0") = false) :
    selectParams model_id = ⟨25, 7.5, 1024, 1024⟩ := by
  have n2 : ¬(containsSub model_id (String.toList "sdxl-lightning-4step") = true) := by
    rw [h2]; decide
  have n3 : ¬(containsSub model_id (String.toList "sdxl-lightning-8step") = true) := by
    rw [h3]; decide
  have n4 : ¬(containsSub model_id (String.toList "sdxl-turbo") = true) := by
    rw [h4]; decide
  have n5 : ¬(containsSub model_id (String.toList "stable-diffusion-xl-base-1.0") = true) := by
    rw [h5]; decide
  unfold selectParams
  rw [if_neg h1, if_neg n2, if_neg n3, if_neg n4, if_neg n5]

/-- Witness for C7 at the concrete unrecognized identifier "foo". -/
theorem c7_unknown_model_fallback_witness :
    selectParams (String.toList "foo") = ⟨25, 7.5, 1024, 1024⟩ :=
  c7_unknown_model_fallback (String.toList "foo") (by decide) (by decide) (by decide)
    (by decide) (by decide)

/-- C8: an accelerator out-of-memory during the inference call fails the
request with HTTP 507 and produces no image, while any other exception
during generation fails it with the generic HTTP 500 — two distinct
statuses. -/
theorem c8_oom_distinct_status (model_id : List Char) (req : ImageGenerationRequest)
    (msg : List Char) :
    generate_image model_id true InferOutcome.cudaOutOfMemory req =
        Except.error ⟨507, String.toList "GPU out of memory. Try a smaller image size or model."⟩ ∧
      generate_image model_id true (InferOutcome.otherFailure msg) req =
        Except.error ⟨500, String.toList "Image generation failed: " ++ msg⟩ ∧
      (507 : Nat) ≠ 500 :=
  ⟨rfl, rfl, by decide⟩

/-! ### The heuristic prompt synthesizer

The heuristic prompt path (`POST /process_dishes_for_prompts/`, spec §4.2)
is code of this repository that is not present under `src/`; the
definitions below are modelled from the specification's description of it. -/

/-- Modelled from the spec: the punctuation collapsed by the synthesizer's
"collapse duplicate punctuation" normalization (the source of the heuristic
prompt synthesizer is not in `src/`). -/
def isPunctChar (c : Char) : Bool :=
  c == '.' || c == ',' || c == '!' || c == '?' || c == ';' || c == ':'

/-- Modelled from the spec: drop a whitespace or punctuation character that
repeats the previous kept character (the source of the heuristic prompt
synthesizer is not in `src/`). -/
def squeezeAux : Char → List Char → List Char
  | _, [] => []
  | prev, c :: rest =>
    if c == prev && (isSpaceChar c || isPunctChar c) then squeezeAux prev rest
    else c :: squeezeAux c rest

/-- Modelled from the spec: "Normalize resulting whitespace and collapse
duplicate punctuation" — collapse runs of a repeated whitespace or
punctuation character (the source of the heuristic prompt synthesizer is
not in `src/`). -/
def normalizeText (l : List Char) : List Char :=
  match l with
  | [] => []
  | c :: rest => c :: squeezeAux c rest

/-- Modelled from the spec: the "fixed keyword→cuisine table (e.g.,
"taco"→"Mexican", "pasta"→"Italian")" (the source of the heuristic prompt
synthesizer is not in `src/`). -/
def cuisineTable : List (List Char × List Char) :=
  [(String.toList "taco", String.toList "Mexican"),
    (String.toList "pasta", String.toList "Italian")]

/-- Modelled from the spec: look the table up "by substring match against
name/description, first match wins" (the source of the heuristic prompt
synthesizer is not in `src/`). -/
def lookupCuisine : List (List Char × List Char) → List Char → List Char → Option (List Char)
  | [], _, _ => none
  | (kw, cz) :: rest, nm, ds =>
    if containsSub (lowerStr nm) kw || containsSub (lowerStr ds) kw then some cz
    else lookupCuisine rest nm ds

/-- Modelled from the spec: Python `", ".join(...)` used for the keyword
clause (the source of the heuristic prompt synthesizer is not in `src/`). -/
def joinSep (sep : List Char) : List (List Char) → List Char
  | [] => []
  | [x] => x
  | x :: y :: rest => x ++ sep ++ joinSep sep (y :: rest)

/-- Modelled from the spec: the heuristic prompt synthesizer (spec §4.2;
its source is not in `src/`).  Subject is the description when it has more
than 3 words, else the name; a "featuring ..." clause is appended for a
non-empty keyword set; a cuisine qualifier from the first-match table
lookup is prepended inside the fixed opening clause "A highly detailed,
photorealistic, {cuisine} gourmet presentation of"; fixed photographic
style descriptors follow; the result is whitespace/punctuation
normalized. -/
def craft_image_prompt (nm ds : List Char) (keywords : List (List Char)) : List Char :=
  normalizeText
    ((match lookupCuisine cuisineTable nm ds with
      | some cz =>
        String.toList "A highly detailed, photorealistic, " ++ cz ++
          String.toList " gourmet presentation of "
      | none => String.toList "A highly detailed, photorealistic gourmet presentation of ") ++
      (if 3 < (splitWs ds).length then ds else nm) ++
      (if keywords.isEmpty then []
       else String.toList " featuring " ++ joinSep (String.toList ", ") keywords) ++
      String.toList ", studio lighting, top-down view, 8k, food photography.")

theorem alpha_not_space_punct (c : Char) (h : c.isAlpha = true) :
    (isSpaceChar c || isPunctChar c) = false := by
  by_contra hne
  have hsp : (isSpaceChar c || isPunctChar c) = true := by
    cases hx : (isSpaceChar c || isPunctChar c)
    · exact absurd hx hne
    · rfl
  have hmem : c ∈ [' ', '\t', '\n', '\r', '\x0b', '\x0c', '.', ',', '!', '?', ';', ':'] := by
    simp only [isSpaceChar, isPunctChar, Bool.or_eq_true, beq_iff_eq] at hsp
    simp only [List.mem_cons, List.not_mem_nil, or_false]
    tauto
  fin_cases hmem <;> exact absurd h (by decide)

theorem squeezeAux_alpha_lead (post : List Char) :
    ∀ ss : List Char, (∀ c ∈ ss, c.isAlpha = true) →
      ∀ prev : Char, ∃ q, squeezeAux prev (ss ++ post) = ss ++ q := by
  intro ss
  induction ss with
  | nil => intro _ prev; exact ⟨squeezeAux prev post, rfl⟩
  | cons c cs ih =>
    intro hall prev
    have hc : c.isAlpha = true := hall c (List.Mem.head _)
    have hnd : ¬((c == prev && (isSpaceChar c || isPunctChar c)) = true) := by
      rw [alpha_not_space_punct c hc]
      simp
    obtain ⟨q, hq⟩ := ih (fun d hd => hall d (List.Mem.tail _ hd)) c
    refine ⟨q, ?_⟩
    simp only [List.cons_append, squeezeAux]
    rw [if_neg hnd]
    simp [hq]

theorem squeezeAux_keeps_alpha (sub : List Char) (hne : sub ≠ [])
    (halpha : ∀ c ∈ sub, c.isAlpha = true) :
    ∀ (pre : List Char) (prev : Char) (post : List Char),
      ∃ p q, squeezeAux prev (pre ++ sub ++ post) = p ++ sub ++ q := by
  intro pre
  induction pre with
  | nil =>
    intro prev post
    cases sub with
    | nil => exact absurd rfl hne
    | cons s ss =>
      have hs : s.isAlpha = true := halpha s (List.Mem.head _)
      have hnd : ¬((s == prev && (isSpaceChar s || isPunctChar s)) = true) := by
        rw [alpha_not_space_punct s hs]
        simp
      obtain ⟨q, hq⟩ :=
        squeezeAux_alpha_lead post ss (fun d hd => halpha d (List.Mem.tail _ hd)) s
      refine ⟨[], q, ?_⟩
      simp only [List.nil_append, List.cons_append, squeezeAux]
      rw [if_neg hnd]
      simp [hq]
  | cons a pre ih =>
    intro prev post
    by_cases hcond : (a == prev && (isSpaceChar a || isPunctChar a)) = true
    · obtain ⟨p, q, hpq⟩ := ih prev post
      refine ⟨p, q, ?_⟩
      simp only [List.cons_append, squeezeAux]
      rw [if_pos hcond]
      simpa using hpq
    · obtain ⟨p, q, hpq⟩ := ih a post
      refine ⟨a :: p, q, ?_⟩
      simp only [List.cons_append, squeezeAux]
      rw [if_neg hcond]
      simpa using hpq

theorem isPrefixOf_append_self : ∀ s t : List Char, s.isPrefixOf (s ++ t) = true := by
  intro s
  induction s with
  | nil =>
    intro t
    rw [List.nil_append]
    cases t <;> rfl
  | cons c cs ih =>
    intro t
    simp only [List.cons_append, List.isPrefixOf, beq_self_eq_true, Bool.true_and]
    exact ih t

theorem containsSub_of_parts : ∀ p sub q : List Char, containsSub (p ++ sub ++ q) sub = true := by
  intro p
  induction p with
  | nil =>
    intro sub q
    cases sub with
    | nil =>
      cases q with
      | nil => rfl
      | cons c cs => simp [containsSub, List.isPrefixOf]
    | cons s ss =>
      have h1 : (s :: ss).isPrefixOf ((s :: ss) ++ q) = true := isPrefixOf_append_self (s :: ss) q
      simp only [List.cons_append, List.nil_append] at h1 ⊢
      simp [containsSub, h1]
  | cons a p ih =>
    intro sub q
    have h2 := ih sub q
    simp only [List.append_assoc] at h2
    simp only [List.cons_append, containsSub, List.append_eq, List.append_assoc, h2,
      Bool.or_true]

/-- The normalization cannot destroy an occurrence of a non-empty
all-alphabetic substring: only repeated whitespace/punctuation characters
are dropped. -/
theorem normalizeText_keeps_alpha (l sub : List Char) (hne : sub ≠ [])
    (halpha : ∀ c ∈ sub, c.isAlpha = true)
    (h : ∃ p q, l = p ++ sub ++ q) :
    containsSub (normalizeText l) sub = true := by
  obtain ⟨p, q, rfl⟩ := h
  cases p with
  | nil =>
    cases sub with
    | nil => exact absurd rfl hne
    | cons s ss =>
      obtain ⟨q', hq'⟩ :=
        squeezeAux_alpha_lead q ss (fun d hd => halpha d (List.Mem.tail _ hd)) s
      simp only [List.nil_append, List.cons_append, normalizeText]
      rw [hq']
      exact containsSub_of_parts [] (s :: ss) q'
  | cons a p' =>
    obtain ⟨p2, q2, hpq⟩ := squeezeAux_keeps_alpha sub hne halpha p' a q
    simp only [List.cons_append, normalizeText, List.append_assoc] at hpq ⊢
    rw [hpq]
    have h3 := containsSub_of_parts (a :: p2) sub q2
    simpa using h3

/-- C9: a dish whose name contains "taco" (case-insensitively) always gets
a prompt containing "Mexican": "taco" is the first entry of the cuisine
table, so the first-match substring lookup selects "Mexican", which the
opening clause embeds and the normalization preserves. -/
theorem c9_taco_prompt_mexican (nm ds : List Char) (keywords : List (List Char))
    (h : containsSub (lowerStr nm) (String.toList "taco") = true) :
    containsSub (craft_image_prompt nm ds keywords) (String.toList "Mexican") = true := by
  have hc : lookupCuisine cuisineTable nm ds = some (String.toList "Mexican") := by
    simp only [cuisineTable, lookupCuisine]
    rw [h]
    simp
  unfold craft_image_prompt
  rw [hc]
  apply normalizeText_keeps_alpha
  · decide
  · decide
  · refine ⟨String.toList "A highly detailed, photorealistic, ",
      String.toList " gourmet presentation of " ++
        ((if 3 < (splitWs ds).length then ds else nm) ++
          ((if keywords.isEmpty then []
            else String.toList " featuring " ++ joinSep (String.toList ", ") keywords) ++
            String.toList ", studio lighting, top-down view, 8k, food photography.")), ?_⟩
    simp [List.append_assoc]

/-- Witness for C9 at the concrete dish name "Spicy Tacos". -/
theorem c9_taco_prompt_mexican_witness :
    containsSub (lowerStr (String.toList "Spicy Tacos")) (String.toList "taco") = true ∧
      containsSub (craft_image_prompt (String.toList "Spicy Tacos") [] [])
          (String.toList "Mexican") = true :=
  ⟨rfl, c9_taco_prompt_mexican (String.toList "Spicy Tacos") [] [] rfl⟩
